import Mathlib

/-!
# Verification of the task-manager backend (shallow embedding)

This file embeds the task-management backend (Express + Mongoose) of the
repository into Lean and proves / refutes the frozen claims about it.

Conventions of the embedding:
* machine timestamps (`Date`) are modelled as `Int` (milliseconds since epoch);
* MongoDB ObjectIds are modelled as `Nat`;
* the task collection is a `List Task`; `Task.find` / `countDocuments` become
  `List.filter` / `List.countP` over it;
* MongoDB's `.sort` is modelled by sorting with the comparison order MongoDB
  documents: fields compare by BSON order, in which `null` sorts *before* any
  `Date`, so an ascending sort on `dueDate` puts tasks without a due date first;
* `Joi` validation schemas are embedded as functions collecting the full error
  list (`abortEarly: false`), with `stripUnknown: true` reflected by the
  validated-body types not carrying unknown keys such as `user`.
-/

namespace TaskManager

/-- `status` enum of the task schema (`models/Task`): `['pending', 'completed']`. -/
inductive Status where
  | pending
  | completed
deriving DecidableEq, Repr, BEq

/-- `priority` enum of the task schema: `['low', 'medium', 'high']`. -/
inductive Priority where
  | low
  | medium
  | high
deriving DecidableEq, Repr, BEq

/-- A task document, following the Mongoose `taskSchema` in `models/Task`.
`dueDate` and `completedAt` both default to `null` (here `none`);
`createdAt` is the timestamp added by `timestamps: true`. -/
structure Task where
  id : Nat
  title : String
  description : String
  status : Status
  priority : Priority
  dueDate : Option Int
  completedAt : Option Int
  user : Nat
  tags : List String
  isImportant : Bool
  notes : String
  createdAt : Int
deriving DecidableEq, Repr

/-! ## The list ordering (`.sort({ isImportant: -1, dueDate: 1, createdAt: -1 })`) -/

/-- Lexicographic non-strict order on quadruples of integers. -/
def lex4 (p q : Int × Int × Int × Int) : Prop :=
  p.1 < q.1 ∨ (p.1 = q.1 ∧
    (p.2.1 < q.2.1 ∨ (p.2.1 = q.2.1 ∧
      (p.2.2.1 < q.2.2.1 ∨ (p.2.2.1 = q.2.2.1 ∧ p.2.2.2 ≤ q.2.2.2)))))

instance (p q : Int × Int × Int × Int) : Decidable (lex4 p q) := by
  unfold lex4; exact inferInstance

/-- BSON comparison key for the `dueDate: 1` (ascending) sort component.
In MongoDB's BSON comparison order `null` ranks below every `Date`, so in an
ascending sort documents whose `dueDate` is `null` come first; dated documents
compare by their date. -/
def dueKey : Option Int → Int × Int
  | none => (0, 0)
  | some d => (1, d)

/-- Sort key of a task for `.sort({ isImportant: -1, dueDate: 1, createdAt: -1 })`:
importance descending (`true` before `false`), then due date ascending with
`null` first (BSON order), then creation time descending. -/
def sortKey (t : Task) : Int × Int × Int × Int :=
  ((if t.isImportant then 0 else 1), (dueKey t.dueDate).1, (dueKey t.dueDate).2,
    -t.createdAt)

/-- The document order produced by the Mongo sort used in `getTasks` /
`Task.getUserTasks`. -/
def mongoTaskLe (a b : Task) : Prop :=
  lex4 (sortKey a) (sortKey b)

instance : DecidableRel mongoTaskLe := by
  intro a b; unfold mongoTaskLe; exact inferInstance

instance : IsTotal Task mongoTaskLe :=
  ⟨by intro a b; unfold mongoTaskLe lex4; omega⟩

instance : IsTrans Task mongoTaskLe :=
  ⟨by intro a b c; unfold mongoTaskLe lex4; omega⟩

/-! ## Query filters (`getTasks` in `controllers/taskController`) -/

/-- The query parameters accepted by `GET /api/tasks` after `taskFilterSchema`
validation: `status`, `priority`, `isImportant`, `search`. -/
structure TaskFilters where
  status : Option Status
  priority : Option Priority
  isImportant : Option Bool
  search : Option String
deriving Repr

/-- `leadMatch pat l` : `pat` is an initial run of `l` (character lists). -/
def leadMatch : List Char → List Char → Bool
  | [], _ => true
  | _ :: _, [] => false
  | p :: ps, h :: hs => p == h && leadMatch ps hs

/-- `containsSeq pat l` : `pat` occurs contiguously inside `l`. -/
def containsSeq (pat : List Char) : List Char → Bool
  | [] => pat.isEmpty
  | h :: rest => leadMatch pat (h :: rest) || containsSeq pat rest

/-- The `$regex: search, $options: 'i'` match of `getTasks`, modelled as
case-insensitive substring search over `title` and `description` (the
free-text search the route exposes). -/
def searchMatches (s : String) (t : Task) : Bool :=
  containsSeq s.toLower.toList t.title.toLower.toList ||
    containsSeq s.toLower.toList t.description.toLower.toList

/-- The Mongo query document built by `getTasks`: always scoped to
`user: userId`, with each filter added only when present.  Note on the
`isImportant` filter: `validateQuery(taskFilterSchema)` has already converted
the query parameter to a boolean (Joi converts by default), so the handler's
`isImportant === 'true'` compares a boolean against the string `'true'` and
is always false — a present `isImportant` parameter, whatever its value,
queries `isImportant: false`. -/
def matchesQuery (uid : Nat) (f : TaskFilters) (t : Task) : Bool :=
  t.user == uid &&
    (match f.status with | none => true | some s => t.status == s) &&
    (match f.priority with | none => true | some p => t.priority == p) &&
    (match f.isImportant with | none => true | some _ => t.isImportant == false) &&
    (match f.search with | none => true | some s => searchMatches s t)

/-- `Task.find(query).sort({ isImportant: -1, dueDate: 1, createdAt: -1 })` :
the caller's tasks matching the filters, in the Mongo sort order. -/
def getTasksList (store : List Task) (uid : Nat) (f : TaskFilters) : List Task :=
  List.insertionSort mongoTaskLe (store.filter (matchesQuery uid f))

/-- The `statistics` object of the `GET /api/tasks` response: the four
`countDocuments` calls of `getTasks`, none of which applies the filters. -/
structure ListStatistics where
  total : Nat
  completed : Nat
  pending : Nat
  important : Nat
deriving DecidableEq, Repr

def listStatistics (store : List Task) (uid : Nat) : ListStatistics where
  total := store.countP (fun t => t.user == uid)
  completed := store.countP (fun t => t.user == uid && t.status == Status.completed)
  pending := store.countP (fun t => t.user == uid && t.status == Status.pending)
  important := store.countP (fun t => t.user == uid && t.isImportant)

/-- Body of the 200 response of `GET /api/tasks`. -/
structure GetTasksResponse where
  count : Nat
  tasks : List Task
  statistics : ListStatistics
deriving Repr

/-- The `getTasks` controller (success path): filtered + sorted task list,
`count` = its length, statistics over the caller's whole collection. -/
def getTasks (store : List Task) (uid : Nat) (f : TaskFilters) : GetTasksResponse :=
  let tasks := getTasksList store uid f
  { count := tasks.length, tasks := tasks, statistics := listStatistics store uid }

/-! ## Spec-side ordering, for the refinement comparison of claim C1.

The spec says the list is sorted by importance (descending), then due date
(ascending, *nulls last*), then creation time (descending).  These
definitions follow the spec's words, to be compared with `mongoTaskLe`
above, which follows the source (and MongoDB's BSON null-first ascending
order). -/

/-- Due-date key under the spec's words: tasks *with* a due date come first,
in ascending date order; tasks with no due date come last. -/
def specDueKey : Option Int → Int × Int
  | none => (1, 0)
  | some d => (0, d)

/-- Sort key under the spec's words: importance descending, due date
ascending with nulls last, creation time descending. -/
def specSortKey (t : Task) : Int × Int × Int × Int :=
  ((if t.isImportant then 0 else 1), (specDueKey t.dueDate).1,
    (specDueKey t.dueDate).2, -t.createdAt)

/-- The ordering claimed by the spec (nulls last). -/
def specTaskLe (a b : Task) : Prop :=
  lex4 (specSortKey a) (specSortKey b)

instance : DecidableRel specTaskLe := by
  intro a b; unfold specTaskLe; exact inferInstance

/-- The returned order, spelled out in the claim's vocabulary (with the
null-placement as the code actually has it): `a` may precede `b` iff `a` is
important and `b` is not, or they are equally important and `a`'s due date
strictly precedes `b`'s (no due date preceding every due date), or they are
equally important with the same due date and `a` was created no earlier. -/
def dueBefore : Option Int → Option Int → Prop
  | none, some _ => True
  | some d, some e => d < e
  | _, _ => False

def returnedOrder (a b : Task) : Prop :=
  (a.isImportant = true ∧ b.isImportant = false) ∨
    (a.isImportant = b.isImportant ∧ dueBefore a.dueDate b.dueDate) ∨
    (a.isImportant = b.isImportant ∧ a.dueDate = b.dueDate ∧
      b.createdAt ≤ a.createdAt)

/-! ## Status toggling and the save middleware (`models/Task`) -/

/-- The `taskSchema.pre('save')` middleware.  `statusModified` models
Mongoose's `this.isModified('status')`; `now` is `new Date()`:
if the status was modified to `completed` and `completedAt` is unset, stamp
it; if the status was modified to `pending`, clear it. -/
def preSaveHook (statusModified : Bool) (now : Int) (t : Task) : Task :=
  let t1 :=
    if statusModified ∧ t.status = Status.completed ∧ t.completedAt = none then
      { t with completedAt := some now }
    else t
  if statusModified ∧ t1.status = Status.pending then
    { t1 with completedAt := none }
  else t1

/-- `task.toggleStatus()`: flip `pending`/`completed`, stamp or clear
`completedAt`, then `save()` (which runs the pre-save hook with the status
marked modified). -/
def Task.toggleStatus (t : Task) (now : Int) : Task :=
  let t1 :=
    if t.status = Status.pending then
      { t with status := Status.completed }
    else
      { t with status := Status.pending }
  let t2 :=
    if t1.status = Status.completed then
      { t1 with completedAt := some now }
    else
      { t1 with completedAt := none }
  preSaveHook true now t2

/-- `task.toggleImportant()`: flip the flag, then `save()` (the pre-save hook
does nothing since the status is unmodified). -/
def Task.toggleImportant (t : Task) (now : Int) : Task :=
  preSaveHook false now { t with isImportant := !t.isImportant }

/-! ## Validated request bodies (`utils/validation`) -/

/-- A raw `PUT /api/tasks/:id` JSON body, before validation.  Besides the
fields `updateTaskSchema` knows, it may carry a `user` field (or other
unknown keys, represented by `user` as the interesting one); `dueDate` can be
absent, `null`, or a date, hence `Option (Option Int)`. -/
structure RawUpdateBody where
  title : Option String
  description : Option String
  status : Option Status
  priority : Option Priority
  dueDate : Option (Option Int)
  tags : Option (List String)
  isImportant : Option Bool
  notes : Option String
  user : Option Nat
deriving Repr

/-- An update body as it leaves `validateRequest(updateTaskSchema)`:
`stripUnknown: true` has removed every key the schema does not declare —
in particular `user`. -/
structure UpdateBody where
  title : Option String
  description : Option String
  status : Option Status
  priority : Option Priority
  dueDate : Option (Option Int)
  tags : Option (List String)
  isImportant : Option Bool
  notes : Option String
deriving Repr

/-- A raw `POST /api/tasks` JSON body (again with a possible `user` key). -/
structure RawCreateBody where
  title : String
  description : Option String
  priority : Option Priority
  dueDate : Option (Option Int)
  tags : Option (List String)
  isImportant : Option Bool
  notes : Option String
  user : Option Nat
deriving Repr

/-- A create body as it leaves `validateRequest(createTaskSchema)`: unknown
keys stripped, defaults applied (`priority: 'medium'`, `isImportant: false`). -/
structure CreateBody where
  title : String
  description : Option String
  priority : Priority
  dueDate : Option Int
  tags : List String
  isImportant : Bool
  notes : Option String
deriving Repr

/-- `validateRequest(createTaskSchema)` error collection (`abortEarly: false`):
all violated constraints of `createTaskSchema`, in schema order.  `now`
models Joi's `'now'` reference for `.greater('now')`. -/
def createTaskErrors (now : Int) (b : RawCreateBody) : List String :=
  (if b.title.length < 1 then ["Task title cannot be empty"] else []) ++
  (if 100 < b.title.length then ["Task title cannot exceed 100 characters"] else []) ++
  (match b.description with
    | some d => if 500 < d.length then ["Task description cannot exceed 500 characters"] else []
    | none => []) ++
  (match b.dueDate with
    | some (some d) => if d ≤ now then ["Due date must be in the future"] else []
    | _ => []) ++
  (match b.tags with
    | some ts =>
      (if 10 < ts.length then ["Cannot have more than 10 tags"] else []) ++
        (if ts.any (fun s => 20 < s.length) then ["Tag cannot exceed 20 characters"] else [])
    | none => []) ++
  (match b.notes with
    | some n => if 1000 < n.length then ["Notes cannot exceed 1000 characters"] else []
    | none => [])

/-- Successful validation result of `createTaskSchema`: unknown keys (`user`)
stripped, Joi defaults applied (`priority: 'medium'`, `isImportant: false`). -/
def stripCreateBody (b : RawCreateBody) : CreateBody where
  title := b.title
  description := b.description
  priority := b.priority.getD Priority.medium
  dueDate := match b.dueDate with | some d => d | none => none
  tags := b.tags.getD []
  isImportant := b.isImportant.getD false
  notes := b.notes

/-- `validateRequest(updateTaskSchema)` error collection.  `updateTaskSchema`
places no constraint at all on `dueDate` (`Joi.date().allow(null).optional()`). -/
def updateTaskErrors (b : RawUpdateBody) : List String :=
  (match b.title with
    | some s =>
      (if s.length < 1 then ["Task title cannot be empty"] else []) ++
        (if 100 < s.length then ["Task title cannot exceed 100 characters"] else [])
    | none => []) ++
  (match b.description with
    | some d => if 500 < d.length then ["Task description cannot exceed 500 characters"] else []
    | none => []) ++
  (match b.tags with
    | some ts =>
      (if 10 < ts.length then ["Cannot have more than 10 tags"] else []) ++
        (if ts.any (fun s => 20 < s.length) then ["Tag cannot exceed 20 characters"] else [])
    | none => []) ++
  (match b.notes with
    | some n => if 1000 < n.length then ["Notes cannot exceed 1000 characters"] else []
    | none => [])

/-- Successful validation result of `updateTaskSchema`: the same fields with
unknown keys (`user`) stripped. -/
def stripUpdateBody (b : RawUpdateBody) : UpdateBody where
  title := b.title
  description := b.description
  status := b.status
  priority := b.priority
  dueDate := b.dueDate
  tags := b.tags
  isImportant := b.isImportant
  notes := b.notes

/-! ## Task store operations (`controllers/taskController`) -/

/-- `Task.findById`: the task collection is a list; ids are unique, `find?`
returns the document with the given id. -/
def findById (store : List Task) (tid : Nat) : Option Task :=
  store.find? (fun t => t.id == tid)

/-- Persisting one updated document back into the collection (Mongo updates
the document with the matching `_id`). -/
def replaceById (store : List Task) (t' : Task) : List Task :=
  store.map (fun u => if u.id == t'.id then t' else u)

/-- `getTask` (GET /api/tasks/:id): 404 when no document has the id, 403 when
the document's `user` differs from the caller, else 200.  Never mutates. -/
def getTask (store : List Task) (caller : Nat) (tid : Nat) : Nat :=
  match findById store tid with
  | none => 404
  | some t => if t.user ≠ caller then 403 else 200

/-- `createTask` body assembly + `Task.create`: `{ ...req.body, user: req.user.id }`
(the `user` field is written last, so it is always the caller), schema
defaults for the unset fields, then the save (the pre-save hook leaves a
fresh pending task unchanged). -/
def buildTask (newId : Nat) (caller : Nat) (createdAt : Int) (b : CreateBody) : Task :=
  preSaveHook true createdAt
    { id := newId
      title := b.title
      description := b.description.getD ""
      status := Status.pending
      priority := b.priority
      dueDate := b.dueDate
      completedAt := none
      user := caller
      tags := b.tags
      isImportant := b.isImportant
      notes := b.notes.getD ""
      createdAt := createdAt }

/-- POST /api/tasks through `validateRequest(createTaskSchema)` and
`createTask`: 400 with the collected errors, or 201 and the new document. -/
def createTask (now : Int) (store : List Task) (caller : Nat) (b : RawCreateBody)
    (newId : Nat) : Nat × List Task :=
  if createTaskErrors now b ≠ [] then (400, store)
  else (201, store ++ [buildTask newId caller now (stripCreateBody b)])

/-- `findByIdAndUpdate(id, req.body, { new: true, runValidators: true })`:
the supplied paths overwrite the stored ones.  `completedAt` and `user` are
never in a validated body, so they are untouched; and being a query-style
update, the `pre('save')` hook does NOT run. -/
def applyUpdate (b : UpdateBody) (t : Task) : Task :=
  { t with
    title := b.title.getD t.title
    description := b.description.getD t.description
    status := b.status.getD t.status
    priority := b.priority.getD t.priority
    dueDate := match b.dueDate with | some d => d | none => t.dueDate
    tags := b.tags.getD t.tags
    isImportant := b.isImportant.getD t.isImportant
    notes := b.notes.getD t.notes }

/-- `updateTask` (PUT /api/tasks/:id), after validation: 404 / 403 checks,
then the query-style update. -/
def updateTask (store : List Task) (caller : Nat) (tid : Nat) (b : UpdateBody) :
    Nat × List Task :=
  match findById store tid with
  | none => (404, store)
  | some t =>
    if t.user ≠ caller then (403, store)
    else (200, replaceById store (applyUpdate b t))

/-- PUT /api/tasks/:id through `validateRequest(updateTaskSchema)`. -/
def updateTaskRoute (store : List Task) (caller : Nat) (tid : Nat)
    (rb : RawUpdateBody) : Nat × List Task :=
  if updateTaskErrors rb ≠ [] then (400, store)
  else updateTask store caller tid (stripUpdateBody rb)

/-- `deleteTask` (DELETE /api/tasks/:id): 404 / 403 checks, then
`task.deleteOne()` removes the found document. -/
def deleteTask (store : List Task) (caller : Nat) (tid : Nat) : Nat × List Task :=
  match findById store tid with
  | none => (404, store)
  | some t =>
    if t.user ≠ caller then (403, store)
    else (200, store.eraseP (fun u => u.id == tid))

/-- `toggleTaskStatus` (PATCH /api/tasks/:id/toggle): 404 / 403 checks, then
`task.toggleStatus()` persisted. -/
def toggleTaskStatus (now : Int) (store : List Task) (caller : Nat) (tid : Nat) :
    Nat × List Task :=
  match findById store tid with
  | none => (404, store)
  | some t =>
    if t.user ≠ caller then (403, store)
    else (200, replaceById store (t.toggleStatus now))

/-- `toggleTaskImportance` (PATCH /api/tasks/:id/important): 404 / 403 checks,
then `task.toggleImportant()` persisted. -/
def toggleTaskImportance (now : Int) (store : List Task) (caller : Nat) (tid : Nat) :
    Nat × List Task :=
  match findById store tid with
  | none => (404, store)
  | some t =>
    if t.user ≠ caller then (403, store)
    else (200, replaceById store (t.toggleImportant now))

/-! ## Statistics (`getTaskStats`)

The completion rate is computed in JavaScript as
`Math.round((completedTasks / totalTasks) * 100)`, i.e. in IEEE-754 binary64
arithmetic: the division and the multiplication each round their exact result
to the nearest 53-bit significand (ties to even), and `Math.round` then
returns the integer nearest the resulting double, ties towards +∞
(ECMA-262).  The double value is an exact rational, so the whole pipeline is
embedded below in exact integer arithmetic.  This is NOT the exact rounding
of `100·completed/total`: at `completed = 23, total = 40` the double product
is `8092405580431359/2^47 = 57.49999999999999289…`, one ulp below `57.5`, and
the program returns 57 where exact rounding gives 58. -/

/-- Round-to-nearest integer of `p / q` (for `q > 0`), ties to even — the
rounding IEEE-754 applies to each operation's exact result. -/
def rneDiv (p q : Nat) : Nat :=
  let d := p / q
  let r := p % q
  if 2 * r < q then d
  else if q < 2 * r then d + 1
  else if d % 2 = 0 then d else d + 1

/-- The binade alignment of the quotient `num / t` (for `0 < num ≤ t`): the
least `k` with `t ≤ num * 2^k`, found by doubling (`fuel` bounds the search;
`fuel = t` always suffices since `num * 2^t ≥ 2^t > t`).  It makes
`num * 2^(52+k) / t` lie in `[2^52, 2^53)`, the significand range of a
binary64 value. -/
def findK : Nat → Nat → Nat → Nat
  | 0, _, _ => 0
  | fuel + 1, num, t => if t ≤ num then 0 else findK fuel (2 * num) t + 1

/-- The JavaScript Number `Math.round((c / t) * 100)` for counts `c ≤ t`,
`0 < t`, in exact integer arithmetic:
* `c / t`: with `k = findK t c t`, the exact quotient scaled into the
  binary64 significand range is `c * 2^(52+k) / t ∈ [2^52, 2^53)`; rounding
  it to the nearest integer (ties even) gives the significand `m1` of the
  double `m1 * 2^(-52-k)`;
* `* 100`: the exact product has significand-range scaling `100 * m1 / 2^dpow`
  where `2^(52+dpow)` is the binade of `100 * m1` (`dpow = 6` when
  `100 * m1 < 2^59`, else `7`, as `100 * m1 ∈ [100·2^52, 100·2^53] ⊂ [2^58, 2^60)`);
  rounding gives the significand `m2` of the double `m2 * 2^(dpow-52) * 2^(-52-k)
  * 2^52 = m2 / 2^D` with `D = 52 + k - dpow`;
* `Math.round`: the nearest integer with ties up of `m2 / 2^D` is
  `⌊m2/2^D + 1/2⌋ = (2*m2 + 2^D) / 2^(D+1)` in integer division.
`c = 0` gives the double `+0`, whose pipeline yields 0.  (Counts beyond
`2^53` would themselves not be exact doubles; stores of such size are out of
scope.) -/
def dblPct (c t : Nat) : Nat :=
  if c = 0 then 0
  else
    let k := findK t c t
    let m1 := rneDiv (c * 2 ^ (52 + k)) t
    let dpow := if 100 * m1 < 2 ^ 59 then 6 else 7
    let m2 := rneDiv (100 * m1) (2 ^ dpow)
    let D := 52 + k - dpow
    (2 * m2 + 2 ^ D) / 2 ^ (D + 1)

/-- The `data` object of GET /api/tasks/stats. -/
structure TaskStatsData where
  total : Nat
  completed : Nat
  pending : Nat
  important : Nat
  overdue : Nat
  completionRate : Nat
  high : Nat
  medium : Nat
  low : Nat
deriving DecidableEq, Repr

/-- `getTaskStats`: the eight `countDocuments` aggregates and the completion
rate `totalTasks > 0 ? Math.round((completedTasks / totalTasks) * 100) : 0`,
the latter embedded through the binary64 pipeline `dblPct`.  The overdue
count is `{ status: 'pending', dueDate: { $lt: now } }`; a `$lt` comparison
never matches a `null` due date. -/
def getTaskStats (store : List Task) (uid : Nat) (now : Int) : TaskStatsData :=
  let total := store.countP (fun t => t.user == uid)
  let completed := store.countP (fun t => t.user == uid && t.status == Status.completed)
  { total := total
    completed := completed
    pending := store.countP (fun t => t.user == uid && t.status == Status.pending)
    important := store.countP (fun t => t.user == uid && t.isImportant)
    overdue := store.countP (fun t => t.user == uid && t.status == Status.pending &&
      (match t.dueDate with | some d => decide (d < now) | none => false))
    completionRate := if 0 < total then dblPct completed total else 0
    high := store.countP (fun t => t.user == uid && t.priority == Priority.high)
    medium := store.countP (fun t => t.user == uid && t.priority == Priority.medium)
    low := store.countP (fun t => t.user == uid && t.priority == Priority.low) }

/-! ## Authentication middleware (`middleware/auth`, `protect`) -/

/-- A user document (`models/User`), reduced to the fields `protect` reads. -/
structure User where
  id : Nat
  name : String
  email : String
  isActive : Bool
deriving DecidableEq, Repr

/-- Outcome of `jwt.verify(token, secret)`: the decoded subject id, or one of
the two error classes the middleware distinguishes (`JsonWebTokenError` for a
malformed token / invalid signature, `TokenExpiredError` for expiry). -/
inductive VerifyOutcome where
  | ok (id : Nat)
  | invalidToken
  | expiredToken
deriving DecidableEq, Repr

/-- Token extraction of `protect`: header must start with `Bearer`, the token
is `header.split(' ')[1]` (absent when there is no second word). -/
def extractToken (header : Option String) : Option String :=
  match header with
  | none => none
  | some h => if h.startsWith "Bearer" then (h.splitOn " ")[1]? else none

/-- Result of the `protect` middleware: a 401 rejection with the response
message, or the request proceeding with the authenticated user attached. -/
inductive AuthResult where
  | reject (msg : String)
  | proceed (u : User)
deriving DecidableEq, Repr

/-- The `protect` middleware: no token → 401; verification error → 401
(distinguishing invalid and expired); unknown subject → 401; deactivated
subject → 401; otherwise proceed with the user on the request. -/
def protect (header : Option String) (verify : String → VerifyOutcome)
    (users : List User) : AuthResult :=
  match extractToken header with
  | none => AuthResult.reject "Not authorized to access this route. No token provided."
  | some tok =>
    match verify tok with
    | VerifyOutcome.invalidToken => AuthResult.reject "Invalid token. Please log in again."
    | VerifyOutcome.expiredToken => AuthResult.reject "Token expired. Please log in again."
    | VerifyOutcome.ok uid =>
      match users.find? (fun u => u.id == uid) with
      | none => AuthResult.reject "User not found with this token."
      | some u =>
        if !u.isActive then AuthResult.reject "User account is deactivated."
        else AuthResult.proceed u

/-! ## The middleware pipeline (`server.js` + `routes/tasks.js`) -/

/-- The middleware stages the claims speak about.  `ownership` exists only in
the claim's vocabulary: the code performs the ownership check inside the
route handler, never as a middleware. -/
inductive Stage where
  | rateLimit
  | validation
  | tokenVerify
  | ownership
  | handler
deriving DecidableEq, Repr

/-- The task routes of `routes/tasks.js`. -/
inductive TaskRoute where
  | list
  | stats
  | getOne
  | create
  | update
  | remove
  | toggle
  | important
deriving DecidableEq, Repr

/-- Mounted path of each task route (router mounted at `/api/tasks`). -/
def routePath : TaskRoute → String
  | TaskRoute.list => "/api/tasks/"
  | TaskRoute.stats => "/api/tasks/stats"
  | TaskRoute.getOne => "/api/tasks/:id"
  | TaskRoute.create => "/api/tasks/"
  | TaskRoute.update => "/api/tasks/:id"
  | TaskRoute.remove => "/api/tasks/:id"
  | TaskRoute.toggle => "/api/tasks/:id/toggle"
  | TaskRoute.important => "/api/tasks/:id/important"

/-- `server.js` application-level middleware with its mount prefix, in
registration order: `app.use('/api/', limiter)`. -/
def appMiddleware : List (String × Stage) :=
  [("/api/", Stage.rateLimit)]

/-- `routes/tasks.js` router-level middleware, in registration order:
`router.use(protect)`. -/
def routerMiddleware : List Stage :=
  [Stage.tokenVerify]

/-- Per-route middleware from `routes/tasks.js`: `validateQuery(taskFilterSchema)`
on the list route, `validateRequest(createTaskSchema)` on create,
`validateRequest(updateTaskSchema)` on update; nothing elsewhere. -/
def routeMiddleware : TaskRoute → List Stage
  | TaskRoute.list => [Stage.validation]
  | TaskRoute.create => [Stage.validation]
  | TaskRoute.update => [Stage.validation]
  | _ => []

/-- The middleware chain Express executes for a task route: application
middleware whose mount prefix matches the path, then router middleware, then
the route's own middleware, then the handler. -/
def taskPipeline (r : TaskRoute) : List Stage :=
  ((appMiddleware.filter (fun m => leadMatch m.1.toList (routePath r).toList)).map
      Prod.snd) ++
    routerMiddleware ++ routeMiddleware r ++ [Stage.handler]

/-! ## Concrete documents used by witnesses and counterexamples -/

/-- An unimportant pending task of user 7 with no due date. -/
def taskNoDue : Task :=
  { id := 1, title := "alpha", description := "", status := Status.pending,
    priority := Priority.medium, dueDate := none, completedAt := none,
    user := 7, tags := [], isImportant := false, notes := "", createdAt := 0 }

/-- An unimportant pending task of user 7 due at time 5. -/
def taskDue : Task :=
  { id := 2, title := "beta", description := "", status := Status.pending,
    priority := Priority.medium, dueDate := some 5, completedAt := none,
    user := 7, tags := [], isImportant := false, notes := "", createdAt := 1 }

/-- A store holding the two example tasks (dated one first). -/
def exStore : List Task := [taskDue, taskNoDue]

/-- A request with no filters set. -/
def noFilters : TaskFilters :=
  { status := none, priority := none, isImportant := none, search := none }

/-! ## Theorems -/

/-- Helper: the Mongo sort order implies the claim-vocabulary order (with the
code's null placement). -/
theorem mongoTaskLe_imp_returnedOrder {a b : Task} (h : mongoTaskLe a b) :
    returnedOrder a b := by
  unfold mongoTaskLe lex4 sortKey at h
  unfold returnedOrder dueBefore
  cases ha : a.isImportant <;> cases hb : b.isImportant <;>
    cases had : a.dueDate <;> cases hbd : b.dueDate <;>
      simp only [ha, hb, had, hbd, dueKey] at h ⊢ <;>
        simp_all

/-- C1 (amended): for every store, user and filter combination, any task the
list endpoint returns before another is important while the other is not, or
ties on importance and strictly precedes it in due date — a task with no due
date preceding every dated task — or ties on both and was created no
earlier.  (Importance descending, due date ascending with nulls FIRST,
creation time descending.) -/
theorem getTasks_pairwise_order (store : List Task) (uid : Nat) (f : TaskFilters) :
    List.Pairwise returnedOrder (getTasks store uid f).tasks :=
  List.Pairwise.imp (fun h => mongoTaskLe_imp_returnedOrder h)
    (List.sorted_insertionSort mongoTaskLe (store.filter (matchesQuery uid f)))

/-- C1 (counterexample to the claim as stated): with two unfiltered tasks of
the same user, one dated and one without a due date, the returned list is not
sorted by the spec's ordering, because the task with no due date is returned
first (nulls sort first in an ascending Mongo sort, not last). -/
theorem getTasks_not_spec_sorted :
    ¬ List.Sorted specTaskLe (getTasks exStore 7 noFilters).tasks := by decide

/-- C3 (counterexample to the claim as stated): the chain for the create
route is not rate limit → schema validation → token verification → ownership
→ handler; token verification (`router.use(protect)`) runs before the
per-route schema validation, and no ownership middleware exists. -/
theorem taskPipeline_create_ne_claimed :
    taskPipeline TaskRoute.create ≠
      [Stage.rateLimit, Stage.validation, Stage.tokenVerify, Stage.ownership,
        Stage.handler] := by decide

/-- C3 (amended): for every task route the middleware chain is rate limit
first, then token verification, then the route's schema validation stages
(where configured), then the handler last; the ownership check is not a
middleware stage. -/
theorem taskPipeline_order (r : TaskRoute) :
    ∃ v, taskPipeline r = [Stage.rateLimit, Stage.tokenVerify] ++ v ++ [Stage.handler] ∧
      ∀ s ∈ v, s = Stage.validation := by
  cases r <;>
    first
      | exact ⟨[Stage.validation], by decide, by decide⟩
      | exact ⟨[], by decide, by decide⟩

/-- The `completedAt`/`status` coupling: `completedAt` is non-null exactly
when the status is `completed`. -/
def completedIff (t : Task) : Prop :=
  t.completedAt ≠ none ↔ t.status = Status.completed

instance (t : Task) : Decidable (completedIff t) := by
  unfold completedIff; exact inferInstance

/-- Helper: one status toggle always (re)establishes the coupling. -/
theorem completedIff_toggleStatus (t : Task) (now : Int) :
    completedIff (t.toggleStatus now) := by
  cases ht : t.status <;>
    simp [Task.toggleStatus, preSaveHook, completedIff, ht]

/-- C4: toggling a task's status twice restores the original status, and for
a task whose `completedAt` is non-null exactly when it is completed, the same
holds after every sequence of toggles. -/
theorem toggleStatus_involutive_invariant (t : Task) (n1 n2 : Int) (ns : List Int)
    (h : completedIff t) :
    ((t.toggleStatus n1).toggleStatus n2).status = t.status ∧
    completedIff (ns.foldl (fun u n => u.toggleStatus n) t) := by
  constructor
  · cases ht : t.status <;>
      simp [Task.toggleStatus, preSaveHook, ht]
  · induction ns generalizing t with
    | nil => exact h
    | cons n ns ih => exact ih _ (completedIff_toggleStatus t n)

/-- Witness for C4 at a concrete task and toggle sequence. -/
theorem toggleStatus_involutive_invariant_witness :
    completedIff taskNoDue ∧
      (((taskNoDue.toggleStatus 1).toggleStatus 2).status = taskNoDue.status ∧
        completedIff ([3, 4, 5].foldl (fun u n => u.toggleStatus n) taskNoDue)) :=
  ⟨by decide, toggleStatus_involutive_invariant taskNoDue 1 2 [3, 4, 5] (by decide)⟩

/-- A `PUT /api/tasks/:id` body that only sets `status` to `completed`. -/
def putBodyCompleted : RawUpdateBody :=
  { title := none, description := none, status := some Status.completed,
    priority := none, dueDate := none, tags := none, isImportant := none,
    notes := none, user := none }

/-- C2 (evaluation at the failing input): a full update that moves a pending
task to `completed` succeeds with 200, yet the stored document keeps
`completedAt = null` — `findByIdAndUpdate` bypasses the `pre('save')` hook
that the schema provides exactly to maintain this invariant (and which the
repo's own API documentation shows maintained on PUT). -/
theorem updateTask_put_completed_leaves_completedAt_null :
    (updateTaskRoute [taskNoDue] 7 1 putBodyCompleted).1 = 200 ∧
    findById (updateTaskRoute [taskNoDue] 7 1 putBodyCompleted).2 1 =
      some { taskNoDue with status := Status.completed } ∧
    ({ taskNoDue with status := Status.completed } : Task).status = Status.completed ∧
    ({ taskNoDue with status := Status.completed } : Task).completedAt = none := by
  decide

/-- C5: for read, update, delete and both toggles: a nonexistent id yields
404 (store untouched), and an existing id owned by a different user yields
403 with the store untouched. -/
theorem task_handlers_ownership (store : List Task) (caller tid : Nat)
    (b : UpdateBody) (now : Int) :
    (findById store tid = none →
      getTask store caller tid = 404 ∧
      updateTask store caller tid b = (404, store) ∧
      deleteTask store caller tid = (404, store) ∧
      toggleTaskStatus now store caller tid = (404, store) ∧
      toggleTaskImportance now store caller tid = (404, store)) ∧
    (∀ t, findById store tid = some t → t.user ≠ caller →
      getTask store caller tid = 403 ∧
      updateTask store caller tid b = (403, store) ∧
      deleteTask store caller tid = (403, store) ∧
      toggleTaskStatus now store caller tid = (403, store) ∧
      toggleTaskImportance now store caller tid = (403, store)) := by
  constructor
  · intro h
    simp [getTask, updateTask, deleteTask, toggleTaskStatus, toggleTaskImportance, h]
  · intro t h hw
    simp [getTask, updateTask, deleteTask, toggleTaskStatus, toggleTaskImportance, h, hw]

/-- An update body with no field set. -/
def emptyUpdate : UpdateBody :=
  { title := none, description := none, status := none, priority := none,
    dueDate := none, tags := none, isImportant := none, notes := none }

/-- Witness for C5: caller 99 does not own task 1 of `exStore` (403, store
unchanged); no task has id 5 (404). -/
theorem task_handlers_ownership_witness :
    (getTask exStore 99 1 = 403 ∧ deleteTask exStore 99 1 = (403, exStore) ∧
      updateTask exStore 99 1 emptyUpdate = (403, exStore)) ∧
    getTask exStore 99 5 = 404 := by
  have h1 := task_handlers_ownership exStore 99 1 emptyUpdate 0
  have h2 := task_handlers_ownership exStore 99 5 emptyUpdate 0
  have o1 := h1.2 taskNoDue (by decide) (by decide)
  exact ⟨⟨o1.1, o1.2.2.1, o1.2.1⟩, (h2.1 (by decide)).1⟩

/-- Helper: with `q` pointwise below `p`, the two counts agree exactly when
`p` never strictly exceeds `q` on the list. -/
theorem countP_eq_countP_iff {α : Type} {p q : α → Bool} (l : List α)
    (hqp : ∀ a ∈ l, q a = true → p a = true) :
    l.countP q = l.countP p ↔ ∀ a ∈ l, p a = true → q a = true := by
  induction l with
  | nil => simp
  | cons a l ih =>
    have hqp' : ∀ x ∈ l, q x = true → p x = true :=
      fun x hx => hqp x (List.mem_cons_of_mem a hx)
    have hmono := List.countP_mono_left hqp'
    rw [List.countP_cons, List.countP_cons]
    by_cases hq : q a = true <;> by_cases hp : p a = true
    · rw [if_pos hq, if_pos hp]
      constructor
      · intro h x hx
        rcases List.mem_cons.mp hx with rfl | hx'
        · intro _; exact hq
        · exact (ih hqp').mp (by omega) x hx'
      · intro h
        have := (ih hqp').mpr (fun x hx hpx => h x (List.mem_cons_of_mem a hx) hpx)
        omega
    · exact absurd (hqp a (List.mem_cons_self a l) hq) hp
    · rw [if_neg hq, if_pos hp]
      constructor
      · intro h; omega
      · intro h; exact absurd (h a (List.mem_cons_self a l) hp) hq
    · rw [if_neg hq, if_neg hp]
      constructor
      · intro h x hx
        rcases List.mem_cons.mp hx with rfl | hx'
        · intro hpa; exact absurd hpa hp
        · exact (ih hqp').mp (by omega) x hx'
      · intro h
        have := (ih hqp').mpr (fun x hx hpx => h x (List.mem_cons_of_mem a hx) hpx)
        omega

/-- C10: the statistics block of a list response ignores the filters (it
equals the unfiltered request's statistics), `count` is the length of the
filtered list, and `count` equals the statistics' total exactly when every
task of the caller passes the filters. -/
theorem getTasks_count_vs_statistics (store : List Task) (uid : Nat) (f : TaskFilters) :
    (getTasks store uid f).statistics = (getTasks store uid noFilters).statistics ∧
    (getTasks store uid f).count = (store.filter (matchesQuery uid f)).length ∧
    ((getTasks store uid f).count = (getTasks store uid f).statistics.total ↔
      ∀ t ∈ store, t.user = uid → matchesQuery uid f t = true) := by
  refine ⟨rfl, ?_, ?_⟩
  · simp [getTasks, getTasksList]
  · have hsub : ∀ t ∈ store, matchesQuery uid f t = true → (t.user == uid) = true := by
      intro t _ h
      unfold matchesQuery at h
      simp only [Bool.and_eq_true] at h
      exact h.1.1.1.1
    have hlen : (getTasks store uid f).count = store.countP (matchesQuery uid f) := by
      simp [getTasks, getTasksList, List.length_insertionSort,
        List.countP_eq_length_filter]
    have htot : (getTasks store uid f).statistics.total =
        store.countP (fun t => t.user == uid) := rfl
    rw [hlen, htot, countP_eq_countP_iff store hsub]
    simp

/-- Helper: `rneDiv` is at most half away from the exact quotient — the
defining property of rounding to nearest (the tie cases land at exactly
one half either way). -/
theorem rneDiv_abs_le (p q : Nat) (hq : 0 < q) :
    |((rneDiv p q : ℚ)) - (p : ℚ) / q| ≤ 1 / 2 := by
  have hdm : q * (p / q) + p % q = p := Nat.div_add_mod p q
  have hr : p % q < q := Nat.mod_lt _ hq
  have hq' : (0 : ℚ) < q := by exact_mod_cast hq
  have hp : (p : ℚ) = q * (p / q : ℕ) + (p % q : ℕ) := by exact_mod_cast hdm.symm
  have key : (p : ℚ) / q = (p / q : ℕ) + ((p % q : ℕ) : ℚ) / q := by
    rw [hp]; field_simp; ring
  have hrq : ((p % q : ℕ) : ℚ) / q < 1 := by
    rw [div_lt_one hq']
    exact_mod_cast hr
  have hrq0 : (0 : ℚ) ≤ ((p % q : ℕ) : ℚ) / q := by positivity
  unfold rneDiv
  dsimp only
  split_ifs with h1 h2 h3
  · have hlt : ((p % q : ℕ) : ℚ) / q ≤ 1 / 2 := by
      rw [div_le_div_iff₀ hq' (by norm_num)]
      have : (p % q) * 2 ≤ 1 * q := by omega
      exact_mod_cast this
    rw [key]
    have heq : ((p / q : ℕ) : ℚ) - ((p / q : ℕ) + ((p % q : ℕ) : ℚ) / q) =
        -(((p % q : ℕ) : ℚ) / q) := by ring
    rw [heq, abs_neg, abs_of_nonneg hrq0]
    exact hlt
  · have hgt : 1 / 2 ≤ ((p % q : ℕ) : ℚ) / q := by
      rw [div_le_div_iff₀ (by norm_num) hq']
      have : 1 * q ≤ (p % q) * 2 := by omega
      exact_mod_cast this
    rw [key]
    have heq : (((p / q + 1 : ℕ)) : ℚ) - ((p / q : ℕ) + ((p % q : ℕ) : ℚ) / q) =
        1 - ((p % q : ℕ) : ℚ) / q := by
      push_cast; ring
    rw [heq, abs_of_nonneg (by linarith)]
    linarith
  · have heq2 : ((p % q : ℕ) : ℚ) / q = 1 / 2 := by
      rw [div_eq_div_iff hq'.ne' (by norm_num)]
      have : (p % q) * 2 = 1 * q := by omega
      exact_mod_cast this
    rw [key]
    have heq : ((p / q : ℕ) : ℚ) - ((p / q : ℕ) + ((p % q : ℕ) : ℚ) / q) =
        -(((p % q : ℕ) : ℚ) / q) := by ring
    rw [heq, abs_neg, abs_of_nonneg hrq0, heq2]
  · have heq2 : ((p % q : ℕ) : ℚ) / q = 1 / 2 := by
      rw [div_eq_div_iff hq'.ne' (by norm_num)]
      have : (p % q) * 2 = 1 * q := by omega
      exact_mod_cast this
    rw [key]
    have heq : (((p / q + 1 : ℕ)) : ℚ) - ((p / q : ℕ) + ((p % q : ℕ) : ℚ) / q) =
        1 - ((p % q : ℕ) : ℚ) / q := by
      push_cast; ring
    rw [heq, heq2, abs_of_nonneg (by norm_num)]
    norm_num

/-- Helper: the integer form of `Math.round` on a nonnegative dyadic — the
nearest integer with ties towards `+∞` of `m / 2^D` is
`(2m + 2^D) / 2^(D+1)` in integer division. -/
theorem natRound_div_pow (m D : Nat) :
    (((2 * m + 2 ^ D) / 2 ^ (D + 1) : ℕ) : ℤ) = round ((m : ℚ) / 2 ^ D) := by
  have h : (m : ℚ) / 2 ^ D + 1 / 2 = ((2 * m + 2 ^ D : ℕ) : ℚ) / ((2 ^ (D + 1) : ℕ) : ℚ) := by
    have hpos : (0 : ℚ) < 2 ^ D := by positivity
    push_cast
    rw [pow_succ]
    field_simp
    ring
  rw [round_eq, h, Rat.floor_natCast_div_natCast, Int.natCast_div]

/-- Helper (fidelity of the binade search): for `0 < num < 2t` and enough
fuel, `findK` returns the least `k` with `t ≤ num·2^k`, so that
`num·2^k ∈ [t, 2t)`; scaled by `2^52` this is exactly the binary64
significand normalization `num·2^(52+k)/t ∈ [2^52, 2^53)` claimed in the
comment on `dblPct`. -/
theorem findK_bracket : ∀ (fuel num t : ℕ), 0 < num → num < 2 * t →
    t ≤ num * 2 ^ fuel →
    t ≤ num * 2 ^ (findK fuel num t) ∧ num * 2 ^ (findK fuel num t) < 2 * t := by
  intro fuel
  induction fuel with
  | zero =>
    intro num t h0 h2 h3
    rw [findK]
    simpa using ⟨by simpa using h3, h2⟩
  | succ fuel ih =>
    intro num t h0 h2 h3
    rw [findK]
    by_cases h : t ≤ num
    · rw [if_pos h]
      simpa using ⟨h, h2⟩
    · rw [if_neg h]
      push_neg at h
      have hre : num * 2 ^ (fuel + 1) = 2 * num * 2 ^ fuel := by ring
      rw [hre] at h3
      have hih := ih (2 * num) t (by omega) (by omega) h3
      constructor
      · calc t ≤ 2 * num * 2 ^ (findK fuel (2 * num) t) := hih.1
          _ = num * 2 ^ (findK fuel (2 * num) t + 1) := by ring
      · calc num * 2 ^ (findK fuel (2 * num) t + 1)
            = 2 * num * 2 ^ (findK fuel (2 * num) t) := by ring
          _ < 2 * t := hih.2

/-- Helper: the error budget of the whole pipeline.  Each of the two
roundings contributes at most half a unit at its own scale (`2^(52+k)` for
the division, `2^D` with `D = 52+k-dpow ≥ 45` for the product), and
`Math.round` adds its final half, so any outputs `m1`, `m2` within the
rounding tolerances put the result within `1/2 + (1/2)^44` of the exact
percentage. -/
theorem rate_bound (c t k m1 m2 dpow : Nat) (ht : 0 < t) (hdp : dpow ≤ 7)
    (hm1 : |(m1 : ℚ) - (c : ℚ) * 2 ^ (52 + k) / t| ≤ 1 / 2)
    (hm2 : |(m2 : ℚ) - 100 * (m1 : ℚ) / 2 ^ dpow| ≤ 1 / 2) :
    |(((2 * m2 + 2 ^ (52 + k - dpow)) / 2 ^ (52 + k - dpow + 1) : ℕ) : ℚ) -
      100 * (c : ℚ) / t| ≤ 1 / 2 + (1 / 2) ^ 44 := by
  set D := 52 + k - dpow with hD
  have hDd : dpow + D = 52 + k := by omega
  have hD45 : 45 ≤ D := by omega
  have hq' : (0 : ℚ) < t := by exact_mod_cast ht
  have hpD : (0 : ℚ) < 2 ^ D := by positivity
  have hpk : (0 : ℚ) < (2 : ℚ) ^ (52 + k) := by positivity
  have hz : (((2 * m2 + 2 ^ D) / 2 ^ (D + 1) : ℕ) : ℚ) =
      ((round ((m2 : ℚ) / 2 ^ D) : ℤ) : ℚ) := by
    rw [← natRound_div_pow m2 D]
    exact (Int.cast_natCast _).symm
  have h1 : |(((2 * m2 + 2 ^ D) / 2 ^ (D + 1) : ℕ) : ℚ) - (m2 : ℚ) / 2 ^ D| ≤ 1 / 2 := by
    rw [hz]
    simpa [abs_sub_comm] using abs_sub_round ((m2 : ℚ) / 2 ^ D)
  have h2 : |(m2 : ℚ) / 2 ^ D - 100 * (m1 : ℚ) / 2 ^ (52 + k)| ≤ (1 / 2) / 2 ^ D := by
    have hsplit : 100 * (m1 : ℚ) / 2 ^ (52 + k) = (100 * (m1 : ℚ) / 2 ^ dpow) / 2 ^ D := by
      rw [div_div, ← pow_add, hDd]
    rw [hsplit, div_sub_div_same, abs_div, abs_of_pos hpD]
    gcongr
  have hpow : (2 : ℚ) ^ 45 ≤ (2 : ℚ) ^ D := pow_le_pow_right₀ (by norm_num) hD45
  have h2' : ((1 : ℚ) / 2) / 2 ^ D ≤ (1 / 2) / 2 ^ 45 :=
    div_le_div_of_nonneg_left (by norm_num) (by positivity) hpow
  have h3 : |100 * (m1 : ℚ) / 2 ^ (52 + k) - 100 * (c : ℚ) / t| ≤ (50 : ℚ) / 2 ^ 52 := by
    have hid : 100 * (c : ℚ) / t = 100 * ((c : ℚ) * 2 ^ (52 + k) / t) / 2 ^ (52 + k) := by
      field_simp
      ring
    rw [hid]
    have hfac : 100 * (m1 : ℚ) / 2 ^ (52 + k) - 100 * ((c : ℚ) * 2 ^ (52 + k) / t) / 2 ^ (52 + k)
        = 100 * ((m1 : ℚ) - (c : ℚ) * 2 ^ (52 + k) / t) / 2 ^ (52 + k) := by ring
    rw [hfac, abs_div, abs_of_pos hpk, abs_mul,
      abs_of_nonneg (by norm_num : (0 : ℚ) ≤ 100)]
    calc 100 * |(m1 : ℚ) - (c : ℚ) * 2 ^ (52 + k) / t| / 2 ^ (52 + k)
        ≤ 100 * (1 / 2) / 2 ^ (52 + k) := by gcongr
      _ = 50 / 2 ^ (52 + k) := by ring
      _ ≤ 50 / 2 ^ 52 := by
          have hpow2 : (2 : ℚ) ^ 52 ≤ (2 : ℚ) ^ (52 + k) :=
            pow_le_pow_right₀ (by norm_num) (by omega)
          exact div_le_div_of_nonneg_left (by norm_num) (by positivity) hpow2
  calc |(((2 * m2 + 2 ^ D) / 2 ^ (D + 1) : ℕ) : ℚ) - 100 * (c : ℚ) / t|
      ≤ |(((2 * m2 + 2 ^ D) / 2 ^ (D + 1) : ℕ) : ℚ) - (m2 : ℚ) / 2 ^ D| +
        |(m2 : ℚ) / 2 ^ D - 100 * (c : ℚ) / t| := abs_sub_le _ _ _
    _ ≤ 1 / 2 + (|(m2 : ℚ) / 2 ^ D - 100 * (m1 : ℚ) / 2 ^ (52 + k)| +
        |100 * (m1 : ℚ) / 2 ^ (52 + k) - 100 * (c : ℚ) / t|) := by
        have htr := abs_sub_le ((m2 : ℚ) / 2 ^ D) (100 * (m1 : ℚ) / 2 ^ (52 + k))
          (100 * (c : ℚ) / t)
        linarith
    _ ≤ 1 / 2 + ((1 / 2) / 2 ^ 45 + 50 / 2 ^ 52) := by linarith
    _ ≤ 1 / 2 + (1 / 2) ^ 44 := by norm_num

/-- Helper: the double pipeline stays within `1/2 + (1/2)^44` of the exact
percentage `100·c/t`. -/
theorem dblPct_close (c t : Nat) (hct : c ≤ t) (ht : 0 < t) :
    |((dblPct c t : ℚ)) - 100 * (c : ℚ) / t| ≤ 1 / 2 + (1 / 2) ^ 44 := by
  by_cases hc : c = 0
  · subst hc
    simp [dblPct]
    positivity
  · unfold dblPct
    rw [if_neg hc]
    dsimp only
    apply rate_bound c t (findK t c t) _ _ _ ht
    · split_ifs <;> norm_num
    · have h := rneDiv_abs_le (c * 2 ^ (52 + findK t c t)) t ht
      push_cast at h
      exact h
    · have hp : 0 < 2 ^ (if 100 * rneDiv (c * 2 ^ (52 + findK t c t)) t < 2 ^ 59
          then 6 else 7) := by positivity
      have h := rneDiv_abs_le (100 * rneDiv (c * 2 ^ (52 + findK t c t)) t) _ hp
      push_cast at h
      exact h

/-- Helper: consequently the double pipeline differs from the exact
rounding `round(100·c/t)` by at most one. -/
theorem dblPct_near_round (c t : Nat) (hct : c ≤ t) (ht : 0 < t) :
    |((dblPct c t : ℤ)) - round (100 * (c : ℚ) / t)| ≤ 1 := by
  have h1 := dblPct_close c t hct ht
  have h2 : |100 * (c : ℚ) / t - ((round (100 * (c : ℚ) / t) : ℤ) : ℚ)| ≤ 1 / 2 :=
    abs_sub_round _
  have h3 : |((dblPct c t : ℚ)) - ((round (100 * (c : ℚ) / t) : ℤ) : ℚ)| ≤
      1 + (1 / 2) ^ 44 := by
    have htr := abs_sub_le ((dblPct c t : ℚ)) (100 * (c : ℚ) / t)
      ((round (100 * (c : ℚ) / t) : ℤ) : ℚ)
    linarith
  have h4 : ((|((dblPct c t : ℤ)) - round (100 * (c : ℚ) / t)| : ℤ) : ℚ) ≤
      1 + (1 / 2) ^ 44 := by
    rw [Int.cast_abs]
    push_cast
    exact h3
  have h5 : |((dblPct c t : ℤ)) - round (100 * (c : ℚ) / t)| < 2 := by
    by_contra hcon
    push_neg at hcon
    have hq : ((2 : ℤ) : ℚ) ≤ ((|((dblPct c t : ℤ)) - round (100 * (c : ℚ) / t)| : ℤ) : ℚ) := by
      exact_mod_cast hcon
    have : (1 : ℚ) + (1 / 2) ^ 44 < 2 := by norm_num
    linarith
  omega

/-- C6 (amended): for every statistics request with a positive total, the
returned completionRate — `Math.round` of the IEEE-754 double evaluation of
`(completed/total)·100` — lies within `1/2 + (1/2)^44` of the exact
percentage `100·completed/total`, and hence differs from the exact rounding
`round(100·completed/total)` by at most one; it equals 0 when the total is
0.  `completed`/`total` are the caller's completed/overall task counts, and
`overdue` counts exactly the caller's pending tasks with a past due date. -/
theorem getTaskStats_rate_overdue_bounds (store : List Task) (uid : Nat) (now : Int) :
    (0 < (getTaskStats store uid now).total →
      |(((getTaskStats store uid now).completionRate : ℚ)) -
        100 * ((getTaskStats store uid now).completed : ℚ) /
          ((getTaskStats store uid now).total : ℚ)| ≤ 1 / 2 + (1 / 2) ^ 44) ∧
    (0 < (getTaskStats store uid now).total →
      |(((getTaskStats store uid now).completionRate : ℤ)) -
        round (100 * ((getTaskStats store uid now).completed : ℚ) /
          ((getTaskStats store uid now).total : ℚ))| ≤ 1) ∧
    ((getTaskStats store uid now).total = 0 →
      (getTaskStats store uid now).completionRate = 0) ∧
    (getTaskStats store uid now).total = (store.filter (fun t => t.user == uid)).length ∧
    (getTaskStats store uid now).completed =
      ((store.filter (fun t => t.user == uid)).filter
        (fun t => t.status == Status.completed)).length ∧
    (getTaskStats store uid now).overdue =
      ((store.filter (fun t => t.user == uid)).filter
        (fun t => t.status == Status.pending &&
          (match t.dueDate with | some d => decide (d < now) | none => false))).length := by
  have hct : store.countP (fun t => t.user == uid && t.status == Status.completed) ≤
      store.countP (fun t => t.user == uid) := by
    apply List.countP_mono_left
    intro x _ hx
    simp only [Bool.and_eq_true] at hx
    exact hx.1
  have hrate : ∀ _ : 0 < (getTaskStats store uid now).total,
      (getTaskStats store uid now).completionRate =
        dblPct (getTaskStats store uid now).completed
          (getTaskStats store uid now).total := by
    intro h
    have h' : 0 < store.countP (fun t => t.user == uid) := h
    show (if 0 < store.countP (fun t => t.user == uid) then
        dblPct (store.countP (fun t => t.user == uid && t.status == Status.completed))
          (store.countP (fun t => t.user == uid))
      else 0) = dblPct (getTaskStats store uid now).completed
        (getTaskStats store uid now).total
    rw [if_pos h']
    rfl
  refine ⟨?_, ?_, ?_, ?_, ?_, ?_⟩
  · intro h
    rw [hrate h]
    exact dblPct_close _ _ hct h
  · intro h
    rw [hrate h]
    exact dblPct_near_round _ _ hct h
  · intro h
    have h' : store.countP (fun t => t.user == uid) = 0 := h
    show (if 0 < store.countP (fun t => t.user == uid) then _ else 0) = 0
    rw [if_neg (by omega)]
  · exact List.countP_eq_length_filter _ store
  · simp [getTaskStats, List.countP_eq_length_filter, List.filter_filter,
      Bool.and_comm]
  · simp [getTaskStats, List.countP_eq_length_filter, List.filter_filter,
      Bool.and_assoc, Bool.and_comm, Bool.and_left_comm]

/-- A completed task of user 7 (with its completion stamped). -/
def taskDone : Task :=
  { id := 3, title := "gamma", description := "", status := Status.completed,
    priority := Priority.high, dueDate := none, completedAt := some 2,
    user := 7, tags := [], isImportant := true, notes := "", createdAt := 2 }

/-- Three tasks of user 7, one completed. -/
def statsStore : List Task := [taskNoDue, taskDue, taskDone]

/-- Witness for C6 (amended): the store with 3 tasks and 1 completed has a
positive total and its completion rate is within one of the exact rounding
of 100·1/3. -/
theorem getTaskStats_completionRate_witness :
    0 < (getTaskStats statsStore 7 0).total ∧
      |(((getTaskStats statsStore 7 0).completionRate : ℤ)) -
        round (100 * ((getTaskStats statsStore 7 0).completed : ℚ) /
          ((getTaskStats statsStore 7 0).total : ℚ))| ≤ 1 :=
  ⟨by decide, (getTaskStats_rate_overdue_bounds statsStore 7 0).2.1 (by decide)⟩

/-- A store of 40 tasks of user 7, the first 23 completed: the ratio 23/40
exercises the double-rounding divergence. -/
def exStore40 : List Task :=
  (List.range 40).map (fun i =>
    { id := i, title := "item", description := "",
      status := if i < 23 then Status.completed else Status.pending,
      priority := Priority.medium, dueDate := none,
      completedAt := if i < 23 then some 0 else none,
      user := 7, tags := [], isImportant := false, notes := "",
      createdAt := (i : Int) })

/-- C6 (counterexample to the claim as stated): with 40 tasks and 23 of them
completed, the exact rounding of `100·23/40 = 57.5` is 58, but the code
computes `(23/40)·100` in binary64 doubles, where the product evaluates to
`8092405580431359/2^47`, one ulp below `57.5`, and `Math.round` returns 57. -/
theorem getTaskStats_rate_ne_exact_round :
    (getTaskStats exStore40 7 0).completed = 23 ∧
    (getTaskStats exStore40 7 0).total = 40 ∧
    (getTaskStats exStore40 7 0).completionRate = 57 ∧
    round (100 * ((getTaskStats exStore40 7 0).completed : ℚ) /
        ((getTaskStats exStore40 7 0).total : ℚ)) = 58 := by
  refine ⟨by decide, by decide, by decide, ?_⟩
  have h1 : (getTaskStats exStore40 7 0).completed = 23 := by decide
  have h2 : (getTaskStats exStore40 7 0).total = 40 := by decide
  rw [h1, h2]
  rw [round_eq]
  norm_num

/-- C7: `protect` answers 401 in exactly these cases — no token, invalid
token/signature, expired token, unknown subject, deactivated subject — and
otherwise proceeds with the found, active user attached to the request. -/
theorem protect_reject_cases (header : Option String) (verify : String → VerifyOutcome)
    (users : List User) :
    ((∃ msg, protect header verify users = AuthResult.reject msg) ↔
      extractToken header = none ∨
        (∃ tok, extractToken header = some tok ∧
          (verify tok = VerifyOutcome.invalidToken ∨
            verify tok = VerifyOutcome.expiredToken ∨
            (∃ uid, verify tok = VerifyOutcome.ok uid ∧
              (users.find? (fun u => u.id == uid) = none ∨
                ∃ u, users.find? (fun u => u.id == uid) = some u ∧
                  u.isActive = false))))) ∧
    (∀ u, protect header verify users = AuthResult.proceed u →
      ∃ tok uid, extractToken header = some tok ∧ verify tok = VerifyOutcome.ok uid ∧
        users.find? (fun v => v.id == uid) = some u ∧ u.isActive = true) := by
  unfold protect
  cases hex : extractToken header with
  | none =>
    exact ⟨⟨fun _ => Or.inl rfl, fun _ => ⟨_, rfl⟩⟩, fun u h => AuthResult.noConfusion h⟩
  | some tok =>
    dsimp only
    cases hv : verify tok with
    | invalidToken =>
      exact ⟨⟨fun _ => Or.inr ⟨tok, rfl, Or.inl hv⟩, fun _ => ⟨_, rfl⟩⟩,
        fun u h => AuthResult.noConfusion h⟩
    | expiredToken =>
      exact ⟨⟨fun _ => Or.inr ⟨tok, rfl, Or.inr (Or.inl hv)⟩, fun _ => ⟨_, rfl⟩⟩,
        fun u h => AuthResult.noConfusion h⟩
    | ok uid =>
      dsimp only
      cases hf : users.find? (fun u => u.id == uid) with
      | none =>
        exact ⟨⟨fun _ => Or.inr ⟨tok, rfl, Or.inr (Or.inr ⟨uid, hv, Or.inl hf⟩)⟩,
          fun _ => ⟨_, rfl⟩⟩, fun u h => AuthResult.noConfusion h⟩
      | some u =>
        dsimp only
        cases hA : u.isActive with
        | false =>
          refine ⟨⟨fun _ => Or.inr ⟨tok, rfl, Or.inr (Or.inr ⟨uid, hv,
            Or.inr ⟨u, hf, hA⟩⟩)⟩, fun _ => ⟨_, rfl⟩⟩, fun u' h => ?_⟩
          rw [if_pos (by decide)] at h
          exact AuthResult.noConfusion h
        | true =>
          refine ⟨⟨?_, ?_⟩, ?_⟩
          · rintro ⟨m, hm⟩
            rw [if_neg (by decide)] at hm
            exact AuthResult.noConfusion hm
          · rintro (h0 | ⟨tok', htok, h1 | h1 | ⟨uid', hok, h2 | ⟨u', hfind, hact⟩⟩⟩)
            · exact Option.noConfusion h0
            · cases Option.some.inj htok
              rw [hv] at h1
              exact VerifyOutcome.noConfusion h1
            · cases Option.some.inj htok
              rw [hv] at h1
              exact VerifyOutcome.noConfusion h1
            · cases Option.some.inj htok
              rw [hv] at hok
              cases VerifyOutcome.ok.inj hok
              rw [hf] at h2
              exact Option.noConfusion h2
            · cases Option.some.inj htok
              rw [hv] at hok
              cases VerifyOutcome.ok.inj hok
              rw [hf] at hfind
              cases Option.some.inj hfind
              rw [hA] at hact
              exact Bool.noConfusion hact
          · intro u' h
            rw [if_neg (by decide)] at h
            cases AuthResult.proceed.inj h
            exact ⟨tok, uid, rfl, hv, hf, hA⟩

/-- A concrete active user. -/
def activeUser : User := { id := 7, name := "Ann", email := "ann@x.com", isActive := true }

/-- Witness for C7: a request with no Authorization header is rejected, and
the rejection falls under the case analysis of `protect_reject_cases`. -/
theorem protect_reject_cases_witness :
    extractToken none = none ∨
      (∃ tok, extractToken none = some tok ∧
        ((fun _ => VerifyOutcome.ok 7) tok = VerifyOutcome.invalidToken ∨
          (fun _ => VerifyOutcome.ok 7) tok = VerifyOutcome.expiredToken ∨
          (∃ uid, (fun _ => VerifyOutcome.ok 7) tok = VerifyOutcome.ok uid ∧
            ([activeUser].find? (fun u => u.id == uid) = none ∨
              ∃ u, [activeUser].find? (fun u => u.id == uid) = some u ∧
                u.isActive = false)))) :=
  (protect_reject_cases none (fun _ => VerifyOutcome.ok 7) [activeUser]).1.mp
    ⟨"Not authorized to access this route. No token provided.", rfl⟩

/-- Helper: the pre-save hook never changes a document's owner. -/
theorem preSaveHook_user (m : Bool) (now : Int) (t : Task) :
    (preSaveHook m now t).user = t.user := by
  simp only [preSaveHook]
  split_ifs <;> rfl

/-- Helper: in a collection with pairwise-distinct ids, two members with the
same id are the same document. -/
theorem unique_by_id {store : List Task}
    (hids : store.Pairwise (fun a b => a.id ≠ b.id)) {t u : Task}
    (ht : t ∈ store) (hu : u ∈ store) (h : u.id = t.id) : u = t := by
  induction store with
  | nil => cases ht
  | cons a l ih =>
    rcases List.pairwise_cons.mp hids with ⟨ha, hl⟩
    rcases List.mem_cons.mp ht with rfl | ht' <;>
      rcases List.mem_cons.mp hu with rfl | hu'
    · rfl
    · exact absurd h.symm (ha u hu')
    · exact absurd h (ha t ht')
    · exact ih hl ht' hu'

/-- C8: the validated bodies carry no owner — stripping a raw body is blind
to any `user` key it holds; a created task's owner is always the caller (the
handler writes `user: req.user.id` last); creation otherwise only appends;
and a full update changes no task's id or owner. -/
theorem task_owner_immutable (now : Int) (store : List Task)
    (caller newId tid : Nat) (rb : RawCreateBody) (rub : RawUpdateBody)
    (u' : Option Nat) (hids : store.Pairwise (fun a b => a.id ≠ b.id)) :
    stripCreateBody { rb with user := u' } = stripCreateBody rb ∧
    stripUpdateBody { rub with user := u' } = stripUpdateBody rub ∧
    (buildTask newId caller now (stripCreateBody rb)).user = caller ∧
    ((createTask now store caller rb newId).2 = store ∨
      (createTask now store caller rb newId).2 =
        store ++ [buildTask newId caller now (stripCreateBody rb)]) ∧
    (updateTaskRoute store caller tid rub).2.map (fun t => (t.id, t.user)) =
      store.map (fun t => (t.id, t.user)) := by
  refine ⟨rfl, rfl, preSaveHook_user true now _, ?_, ?_⟩
  · unfold createTask
    split
    · exact Or.inl rfl
    · exact Or.inr rfl
  · unfold updateTaskRoute
    split
    · rfl
    · unfold updateTask
      cases hfind : findById store tid with
      | none => rfl
      | some t =>
        dsimp only
        split
        · rfl
        · have htmem : t ∈ store := List.mem_of_find?_eq_some hfind
          unfold replaceById
          rw [List.map_map]
          apply List.map_congr_left
          intro x hx
          by_cases hxid : (x.id == (applyUpdate (stripUpdateBody rub) t).id) = true
          · have hxid' : x.id = t.id := by simpa using hxid
            have hxt : x = t := unique_by_id hids htmem hx hxid'
            subst hxt
            simp [Function.comp, hxid, applyUpdate]
          · simp [Function.comp, hxid]

/-- A raw create body that tries to smuggle in an owner. -/
def rawCreateSample : RawCreateBody :=
  { title := "draft", description := none, priority := none, dueDate := none,
    tags := none, isImportant := none, notes := none, user := some 42 }

/-- Witness for C8 on the concrete two-task store (distinct ids). -/
theorem task_owner_immutable_witness :
    List.Pairwise (fun a b => a.id ≠ b.id) exStore ∧
      ((buildTask 9 7 0 (stripCreateBody rawCreateSample)).user = 7 ∧
        (updateTaskRoute exStore 7 1 putBodyCompleted).2.map
            (fun t => (t.id, t.user)) =
          exStore.map (fun t => (t.id, t.user))) := by
  have h := task_owner_immutable 0 exStore 7 9 1 rawCreateSample putBodyCompleted
    (some 42) (by decide)
  exact ⟨by decide, h.2.2.1, h.2.2.2.2⟩

/-- C9: creation rejects (400) any non-null due date not strictly in the
future, while the update schema is entirely indifferent to the due date
(its validation result never depends on it). -/
theorem create_rejects_past_dueDate (now : Int) (store : List Task)
    (caller newId : Nat) (rb : RawCreateBody) (rub : RawUpdateBody) (d : Int)
    (hd : d ≤ now) :
    (createTask now store caller { rb with dueDate := some (some d) } newId).1 = 400 ∧
    ∀ dd : Option (Option Int),
      updateTaskErrors { rub with dueDate := dd } = updateTaskErrors rub := by
  constructor
  · have hmem : "Due date must be in the future" ∈
        createTaskErrors now { rb with dueDate := some (some d) } := by
      unfold createTaskErrors
      simp [hd]
    have hne : createTaskErrors now { rb with dueDate := some (some d) } ≠ [] :=
      List.ne_nil_of_mem hmem
    unfold createTask
    rw [if_pos hne]
  · intro dd
    rfl

/-- Witness for C9: a due date of 50 at time 100 is not in the future and is
rejected with 400. -/
theorem create_rejects_past_dueDate_witness :
    (50 : Int) ≤ 100 ∧
      (createTask 100 exStore 7
        { rawCreateSample with dueDate := some (some 50) } 9).1 = 400 :=
  ⟨by decide, (create_rejects_past_dueDate 100 exStore 7 9 rawCreateSample
    putBodyCompleted 50 (by decide)).1⟩

end TaskManager
